import Mathlib

/-!
Verification development for the `bettercmd` library
(`src/bettercmd/__init__.py`): a shallow embedding of its command
registration and dispatch mechanism, together with theorems settling the
specification's claims.

Conventions of the embedding:

* Python functions are identified by a numeric `funcId` together with their
  `__name__` string, which the source uses as the default command name.
* Python object identity of `BetterCmdCommand` instances is modelled by a
  unique `objId` allocated at construction time (`nextObjId` counter in the
  interpreter state); two registry entries denote the same Python object
  exactly when they carry the same `objId`.
* Python exceptions are values of `PyExc`; a function that can raise returns
  an `Except PyExc` result or pairs its result with an `Option PyExc`.
* Python `dict`s are modelled as association lists updated in place
  (`updateAssoc`), Python `set`s as lists used only through membership.
-/

/-- Association-list lookup, modelling `dict.get`: the first binding for the
key wins (bindings are kept unique by `updateAssoc`). -/
def lookupAssoc {α β : Type} [DecidableEq α] : List (α × β) → α → Option β
  | [], _ => none
  | (k', v) :: rest, k => if k = k' then some v else lookupAssoc rest k

/-- Association-list update, modelling `dict.__setitem__`: replace the binding
in place when the key is present, else append a new binding. -/
def updateAssoc {α β : Type} [DecidableEq α] : List (α × β) → α → β → List (α × β)
  | [], k, v => [(k, v)]
  | (k', v') :: rest, k, v =>
    if k = k' then (k, v) :: rest else (k', v') :: updateAssoc rest k v

/-- Insert a list of elements into a list used as a set, modelling Python
`set.update`: only elements not already present are appended. -/
def setInsertAll {α : Type} [DecidableEq α] (s : List α) (xs : List α) : List α :=
  xs.foldl (fun acc x => if x ∈ acc then acc else acc ++ [x]) s

/-- Characters treated as whitespace by Python `str.split()` with no
arguments: space, tab, linefeed, return, vertical tab, formfeed. -/
def pyIsSpace (c : Char) : Bool :=
  c = ' ' || c = '\t' || c = '\n' || c = '\r' || c = '\x0b' || c = '\x0c'

/-- Worker for `pyStrSplit`: accumulate the pending token (if any) and the
finished tokens in reverse while scanning the characters. -/
def pySplitRun : List Char → Option String → List String → List String
  | [], cur, acc =>
    (match cur with
     | none => acc
     | some t => t :: acc).reverse
  | c :: rest, cur, acc =>
    if pyIsSpace c then
      pySplitRun rest none
        (match cur with
         | none => acc
         | some t => t :: acc)
    else
      pySplitRun rest
        (some ((match cur with | none => "" | some t => t).push c)) acc

/-- Python `line.split()` (no separator): split on runs of whitespace,
producing no empty tokens.  This is the fallback splitter used by
`BetterCmd.split` when shell-style splitting rejects the line. -/
def pyStrSplit (s : String) : List String :=
  pySplitRun s.data none []

/-- Python slicing `s[n:]`: drop the first `n` characters (all of them when
`n` exceeds the length). -/
def pyDropChars (s : String) (n : Nat) : String :=
  ⟨s.data.drop n⟩

/-- Characters in `shlex.whitespace` (`' \t\r\n'`), the token separators of
the shell-style splitter. -/
def shlexIsSpace (c : Char) : Bool :=
  c = ' ' || c = '\t' || c = '\r' || c = '\n'

/-- States of the `shlex` posix tokenizer: outside any quote, inside single
quotes, inside double quotes, after an escape character outside quotes, and
after an escape character inside double quotes. -/
inductive ShMode : Type
  | norm
  | inSingle
  | inDouble
  | escNorm
  | escDouble
deriving DecidableEq

/-- Append the pending token (if a token has been started) to the accumulator
of already-read tokens. -/
def flushTok (cur : Option String) (acc : List String) : List String :=
  match cur with
  | none => acc
  | some t => t :: acc

/-- The pending token's text, `""` when no token has been started yet. -/
def curStr (cur : Option String) : String :=
  match cur with
  | none => ""
  | some t => t

/-- State machine of `shlex.split(line)` in posix mode with whitespace
splitting, as invoked by `BetterCmd.split`.  `cur = none` means no token has
been started (so a closing pair of empty quotes still yields an empty token,
matching the `quoted` flag of the library tokenizer).  The result is `none`
exactly when the library raises `ValueError`: end of input inside a quote
("No closing quotation") or right after an escape character ("No escaped
character").  Inside double quotes the escape character escapes only `"` and
`\`; otherwise it is kept literally.  Tokens are accumulated in reverse. -/
def shlexRun : List Char → ShMode → Option String → List String → Option (List String)
  | [], .norm, cur, acc => some (flushTok cur acc).reverse
  | [], _, _, _ => none
  | c :: rest, .norm, cur, acc =>
    if shlexIsSpace c then shlexRun rest .norm none (flushTok cur acc)
    else if c = '\'' then shlexRun rest .inSingle (some (curStr cur)) acc
    else if c = '"' then shlexRun rest .inDouble (some (curStr cur)) acc
    else if c = '\\' then shlexRun rest .escNorm (some (curStr cur)) acc
    else shlexRun rest .norm (some ((curStr cur).push c)) acc
  | c :: rest, .inSingle, cur, acc =>
    if c = '\'' then shlexRun rest .norm cur acc
    else shlexRun rest .inSingle (some ((curStr cur).push c)) acc
  | c :: rest, .inDouble, cur, acc =>
    if c = '"' then shlexRun rest .norm cur acc
    else if c = '\\' then shlexRun rest .escDouble cur acc
    else shlexRun rest .inDouble (some ((curStr cur).push c)) acc
  | c :: rest, .escNorm, cur, acc =>
    shlexRun rest .norm (some ((curStr cur).push c)) acc
  | c :: rest, .escDouble, cur, acc =>
    if c = '"' || c = '\\' then shlexRun rest .inDouble (some ((curStr cur).push c)) acc
    else shlexRun rest .inDouble (some (((curStr cur).push '\\').push c)) acc

/-- `shlex.split(line)`: `none` models the `ValueError` raised on malformed
quoting, `some tokens` the successful shell-style token list. -/
def shlexSplit (line : String) : Option (List String) :=
  shlexRun line.data .norm none []

/-- `BetterCmd.split` from the source: try shell-style splitting and fall
back to naive whitespace splitting when the former raises `ValueError`. -/
def BetterCmd.split (line : String) : List String :=
  match shlexSplit line with
  | some tokens => tokens
  | none => pyStrSplit line

/-- Python exceptions that the embedded code can raise: `IndexError` (from
`parts[0]` on an empty token list and `aliases[0]` on an empty alias list),
`CommandExit` (the library's command-exit signal), `DuplicateNameError`
(carrying the colliding names), and an opaque application exception
(anything a handler or hook may raise, tagged by a number). -/
inductive PyExc : Type
  | indexError
  | commandExit
  | duplicateName (names : List String)
  | other (n : Nat)
deriving DecidableEq

/-- Python values that can live in a parsed-arguments namespace: `None`, a
string, or an integer.  The constructor distinguishes an `int` result of
type conversion from the `str` raw token. -/
inductive PyVal : Type
  | pyNone
  | str (s : String)
  | int (n : Int)
deriving DecidableEq

/-- Numeric value of a list of decimal digit characters. -/
def digitsVal (ds : List Char) : Nat :=
  ds.foldl (fun n c => n * 10 + (c.toNat - 48)) 0

/-- Python `int(s)` on a string (the conversion `type=int` applies): strip
surrounding whitespace, allow one optional sign, then decimal digits;
anything else raises `ValueError`, modelled as `none`.  (Underscore digit
grouping is outside the modelled subset.) -/
def pyInt (s : String) : Option Int :=
  let t := ((s.data.dropWhile pyIsSpace).reverse.dropWhile pyIsSpace).reverse
  match t with
  | [] => none
  | '+' :: ds =>
    if ds ≠ [] ∧ ds.all Char.isDigit then some (Int.ofNat (digitsVal ds)) else none
  | '-' :: ds =>
    if ds ≠ [] ∧ ds.all Char.isDigit then some (-(Int.ofNat (digitsVal ds))) else none
  | ds =>
    if ds.all Char.isDigit then some (Int.ofNat (digitsVal ds)) else none

/-- Declared type of an option's value, as passed to `add_argument`
(`type=int` in the source's examples; strings are the untyped default). -/
inductive ArgType : Type
  | str
  | int
deriving DecidableEq

/-- One argparse action, as produced by `parser.add_argument(*args,
**kwargs)` for the argument shapes the source declares: `optionStrings` is
empty for a positional argument and holds the dash-prefixed names for an
optional one; `isHelp` marks the built-in help action. -/
structure ArgAction where
  optionStrings : List String
  dest : String
  argType : ArgType
  defaultVal : Option PyVal
  isHelp : Bool
deriving DecidableEq

/-- The `-h` (also `--help`) action that `ArgumentParser.__init__` installs as the
first element of `_actions`. -/
def helpAction : ArgAction :=
  { optionStrings := ["-h", "--help"], dest := "help", argType := ArgType.str,
    defaultVal := none, isHelp := true }

/-- The state of a `BetterCmdArgumentParser`: program name, description and
the `_actions` list (the help action first, then the declared options). -/
structure ParserState where
  prog : String
  description : Option String
  actions : List ArgAction
deriving DecidableEq

/-- `BetterCmd.create_parser`: a fresh parser, whose `_actions` holds only
the built-in help action.  (The formatter class has no observable effect in
the model; `prog` defaults to the empty program name and is overwritten at
registration time.) -/
def createParser : ParserState :=
  { prog := "", description := none, actions := [helpAction] }

/-- The body of `BetterCmd.option`'s inner decorator acting on the parser:
`parser.add_argument` appends the new action to `_actions`; then, when
`_actions` has at least 3 elements, the source removes the just-added action
(removal by object identity, hence the last element) and re-inserts it at
index 1, right after the help action. -/
def ParserState.addAction (p : ParserState) (a : ArgAction) : ParserState :=
  if p.actions.length + 1 ≥ 3 then
    { p with actions := p.actions.take 1 ++ a :: p.actions.drop 1 }
  else
    { p with actions := p.actions ++ [a] }

/-- The `argparse.Namespace` built by `BetterCmdCommand.__call__`: the two
built-in fields `args_string` and `args_list`, plus the attribute bag that
`parse_args` fills with one field per declared option. -/
structure PyNamespace where
  args_string : String
  args_list : List String
  attrs : List (String × PyVal)
deriving DecidableEq

/-- The overridden `BetterCmdArgumentParser.exit(status, message)`: instead
of terminating the process it writes the message (when one is given) through
`_print_message` — which, with no explicit file, targets the owning
interpreter's `stdout` — and raises `CommandExit`.  The result pairs the
texts written to the interpreter's output stream with the raised
exception. -/
def BetterCmdArgumentParser.exit (message : Option String) : List String × PyExc :=
  (message.toList, PyExc.commandExit)

/-- Texts written to the interpreter's output stream by
`ArgumentParser.error(message)` as routed through the overridden `exit`:
the formatted `prog: error: message` line.  (The usage line that the library
sends to the process stderr with an explicit file argument is outside the
adapter's redirection and not modelled.) -/
def parserError (p : ParserState) (msg : String) : List String :=
  (BetterCmdArgumentParser.exit (some (p.prog ++ ": error: " ++ msg))).1

/-- Stand-in for `argparse`'s generated help text, written when `-h` or
`--help` is requested. -/
def formatHelp (p : ParserState) : String :=
  "usage: " ++ p.prog

/-- A token is treated as an option name when it starts with the `-` prefix
character and has at least one further character. -/
def looksLikeOption (t : String) : Bool :=
  match t.data with
  | '-' :: _ :: _ => true
  | _ => false

/-- Default-filling pass of `parse_args`: every non-help action whose
destination is not yet bound in the namespace gets its declared default
(`None` when no default was declared). -/
def applyDefaults (actions : List ArgAction) (attrs : List (String × PyVal)) :
    List (String × PyVal) :=
  actions.foldl
    (fun ats a =>
      if a.isHelp then ats
      else
        match lookupAssoc ats a.dest with
        | some _ => ats
        | none =>
          updateAssoc ats a.dest
            (match a.defaultVal with
             | some v => v
             | none => PyVal.pyNone))
    attrs

/-- Apply the declared type conversion to a raw token. -/
def convertVal : ArgType → String → Option PyVal
  | ArgType.str, raw => some (PyVal.str raw)
  | ArgType.int, raw => (pyInt raw).map PyVal.int

/-- Token scan of `parse_args` over the argument list, in order: an
option-shaped token is matched against the actions' option strings (a hit on
the help action prints the help text and exits; a miss is a parse error; any
other hit consumes the next token as the option's raw value) and every other
token is collected as a positional value.  An `Except.error` carries the
texts the adapter wrote to the interpreter's output stream before raising
`CommandExit`. -/
def scanTokens (p : ParserState) :
    List String → List String → List (ArgAction × String) →
    Except (List String) (List String × List (ArgAction × String))
  | [], pos, opts => Except.ok (pos.reverse, opts.reverse)
  | t :: rest, pos, opts =>
    if looksLikeOption t then
      match p.actions.find? (fun a => a.optionStrings.contains t) with
      | none => Except.error (parserError p ("unrecognized arguments: " ++ t))
      | some a =>
        if a.isHelp then
          Except.error ([formatHelp p] ++ (BetterCmdArgumentParser.exit none).1)
        else
          match rest with
          | [] => Except.error (parserError p ("argument " ++ a.dest ++ ": expected one argument"))
          | v :: rest' => scanTokens p rest' pos ((a, v) :: opts)
    else
      scanTokens p rest (t :: pos) opts

/-- Bind converted values into the attribute bag, in order; a failing type
conversion is a parse error. -/
def assignAll (p : ParserState) :
    List (ArgAction × String) → List (String × PyVal) →
    Except (List String) (List (String × PyVal))
  | [], attrs => Except.ok attrs
  | (a, raw) :: rest, attrs =>
    match convertVal a.argType raw with
    | none => Except.error (parserError p ("argument " ++ a.dest ++ ": invalid value: " ++ raw))
    | some v => assignAll p rest (updateAssoc attrs a.dest v)

/-- The positional actions of a parser, in `_actions` order (the help action
carries option strings, so it is never positional). -/
def positionalActions (p : ParserState) : List ArgAction :=
  p.actions.filter (fun a => a.optionStrings.isEmpty)

/-- Model of `parser.parse_args(args=args_list, namespace=args)` for the
argument shapes the source declares (single-valued options and one-token
positionals): fill defaults, scan the tokens, match positional values
against the positional actions one-to-one, convert and bind.  The error
branch carries the texts written to the interpreter's output stream before
`CommandExit` was raised. -/
def ParserState.parse_args (p : ParserState) (args : List String) (ns : PyNamespace) :
    Except (List String) PyNamespace :=
  let ns := { ns with attrs := applyDefaults p.actions ns.attrs }
  match scanTokens p args [] [] with
  | Except.error w => Except.error w
  | Except.ok (posRaws, optPairs) =>
    let posActs := positionalActions p
    if posRaws.length < posActs.length then
      Except.error (parserError p "the following arguments are required")
    else if posActs.length < posRaws.length then
      Except.error (parserError p "unrecognized arguments")
    else
      match assignAll p (posActs.zip posRaws ++ optPairs) ns.attrs with
      | Except.error w => Except.error w
      | Except.ok attrs => Except.ok { ns with attrs := attrs }

/-- A `BetterCmdCommand` as built by `BetterCmd.command`: the handler
function (by id) and the optional parser.  The `objId` models Python object
identity: every construction allocates a fresh one, so two registry entries
denote the same Python object exactly when their `objId`s agree.  (The
`parent` back-reference needs no field: the command lives inside its owning
interpreter's state.) -/
structure BetterCmdCommand where
  objId : Nat
  funcId : Nat
  parser : Option ParserState
deriving DecidableEq

/-- The registration-relevant state of a `BetterCmd` interpreter: the
`commands` dictionary, the `_all_aliases` set, the `_aliases` and `_parsers`
dictionaries keyed by handler function, and the object-identity counter for
newly built commands. -/
structure BetterCmdState where
  commands : List (String × BetterCmdCommand)
  allAliases : List String
  aliases : List (Nat × List String)
  parsers : List (Nat × ParserState)
  nextObjId : Nat
deriving DecidableEq

/-- A freshly constructed `BetterCmd()`: empty registry. -/
def initialState : BetterCmdState :=
  { commands := [], allAliases := [], aliases := [], parsers := [], nextObjId := 0 }

/-- The registration loop `for name in aliases: self.commands[name] = cmd`. -/
def setAllNames (m : List (String × BetterCmdCommand)) (names : List String)
    (c : BetterCmdCommand) : List (String × BetterCmdCommand) :=
  names.foldl (fun acc n => updateAssoc acc n c) m

/-- `BetterCmd.command(func)`: look up the pending alias list (defaulting to
the function's own name) and pending parser, build one `BetterCmdCommand`,
configure the parser's `prog` from `aliases[0]` and its description from the
function's docstring, and register the command under every alias.  `aliases[0]`
on an empty alias list raises `IndexError`; no duplicate-name check happens
here. -/
def BetterCmd.command (s : BetterCmdState) (funcId : Nat) (funcName : String)
    (docstring : Option String) : BetterCmdState × Except PyExc BetterCmdCommand :=
  let aliases := (lookupAssoc s.aliases funcId).getD [funcName]
  match lookupAssoc s.parsers funcId with
  | none =>
    let cmd : BetterCmdCommand :=
      { objId := s.nextObjId, funcId := funcId, parser := none }
    ({ s with commands := setAllNames s.commands aliases cmd,
              nextObjId := s.nextObjId + 1 },
     Except.ok cmd)
  | some p =>
    match aliases with
    | [] => (s, Except.error PyExc.indexError)
    | a0 :: _ =>
      let cmd : BetterCmdCommand :=
        { objId := s.nextObjId, funcId := funcId,
          parser := some { p with prog := a0, description := docstring } }
      ({ s with commands := setAllNames s.commands aliases cmd,
                nextObjId := s.nextObjId + 1 },
       Except.ok cmd)

/-- The inner decorator of `BetterCmd.alias(*names, add_function=True)`
applied to a function: prepend the function's own name when requested,
raise `DuplicateNameError` when any requested name is already in
`_all_aliases` (before any mutation), otherwise extend the function's alias
list and the `_all_aliases` set.  The returned pair carries the state after
the call and the raised exception, if any. -/
def BetterCmd.alias (s : BetterCmdState) (funcId : Nat) (funcName : String)
    (names : List String) (addFunction : Bool) : BetterCmdState × Option PyExc :=
  let requested := if addFunction then funcName :: names else names
  let duplicates := requested.filter (fun n => n ∈ s.allAliases)
  if duplicates ≠ [] then
    (s, some (PyExc.duplicateName duplicates))
  else
    let aliases := (lookupAssoc s.aliases funcId).getD []
    ({ s with aliases := updateAssoc s.aliases funcId (aliases ++ requested),
              allAliases := setInsertAll s.allAliases requested },
     none)

/-- The inner decorator of `BetterCmd.option(*args, **kwargs)` applied to a
function: create the pending parser on first use, then `add_argument` with
the source's reordering of `_actions`. -/
def BetterCmd.option (s : BetterCmdState) (funcId : Nat) (a : ArgAction) :
    BetterCmdState :=
  let parser := (lookupAssoc s.parsers funcId).getD createParser
  { s with parsers := updateAssoc s.parsers funcId (parser.addAction a) }

/-- Declare a list of options for one handler, listed in the programmer's
top-to-bottom declaration order.  Stacked decorators apply bottom-up, so the
fold applies the last-declared option first, exactly as Python evaluates the
decorator stack. -/
def declareOptions (s : BetterCmdState) (funcId : Nat) (decls : List ArgAction) :
    BetterCmdState :=
  decls.foldr (fun a acc => BetterCmd.option acc funcId a) s

/-- The parser that a stack of `option` declarations (in declaration order)
builds on top of a fresh parser, option decorators applying bottom-up. -/
def buildParser (decls : List ArgAction) : ParserState :=
  decls.foldr (fun a p => p.addAction a) createParser

/-- The decorator composition `@cmd.command` over `@cmd.alias(...)` applied
to one function: the alias declaration runs first; if it raises, the
exception propagates and `command` never runs. -/
def BetterCmd.registerAliased (s : BetterCmdState) (funcId : Nat) (funcName : String)
    (names : List String) (addFunction : Bool) (docstring : Option String) :
    BetterCmdState × Except PyExc BetterCmdCommand :=
  match BetterCmd.alias s funcId funcName names addFunction with
  | (s1, some e) => (s1, Except.error e)
  | (s1, none) => BetterCmd.command s1 funcId funcName docstring

/-- What a Python handler body does when invoked: optionally assign
`self.running` and optionally raise an exception (a handler that calls
`parser.exit()` raises `CommandExit`, modelled the same way). -/
structure HandlerAct where
  exc : Option PyExc
  setRunning : Option Bool
deriving DecidableEq

/-- A handler body that returns normally without touching the loop flag. -/
def handlerReturns : HandlerAct :=
  { exc := none, setRunning := none }

/-- Observable events of a dispatch or loop iteration: hook invocations and
handler invocations, in program order. -/
inductive RunEvent : Type
  | beforeCommand (line : String)
  | emptyHook
  | defaultHook (name : String) (argsString : String) (argsList : List String)
  | handlerInvoked (funcId : Nat) (ns : PyNamespace)
  | afterCommand (cmdObjId : Option Nat)
  | afterLoop
deriving DecidableEq

/-- Result of `BetterCmdCommand.__call__`: the handler-invocation event (if
the handler was reached), the texts written to the owning interpreter's
output stream, the handler's assignment to `self.running`, and the raised
exception, if any. -/
structure CallOut where
  events : List RunEvent
  writes : List String
  setRunning : Option Bool
  exc : Option PyExc
deriving DecidableEq

/-- `BetterCmdCommand.__call__(args_string, args_list)`: build the namespace
with the two raw fields; when a parser is configured run `parse_args` on the
token list (a parse failure, help request or explicit exit writes its text
and raises `CommandExit` before the handler runs); then call the handler
function, whose body is given by `beh`. -/
def BetterCmdCommand.call (cmd : BetterCmdCommand)
    (beh : Nat → PyNamespace → HandlerAct)
    (args_string : String) (args_list : List String) : CallOut :=
  let ns0 : PyNamespace := { args_string := args_string, args_list := args_list, attrs := [] }
  match cmd.parser with
  | none =>
    let act := beh cmd.funcId ns0
    { events := [RunEvent.handlerInvoked cmd.funcId ns0], writes := [],
      setRunning := act.setRunning, exc := act.exc }
  | some p =>
    match p.parse_args args_list ns0 with
    | Except.ok ns =>
      let act := beh cmd.funcId ns
      { events := [RunEvent.handlerInvoked cmd.funcId ns], writes := [],
        setRunning := act.setRunning, exc := act.exc }
    | Except.error w =>
      { events := [], writes := w, setRunning := none, exc := some PyExc.commandExit }

/-- Decidable equality for `Except`, needed to evaluate dispatch results on
concrete inputs. -/
instance {ε α : Type} [DecidableEq ε] [DecidableEq α] : DecidableEq (Except ε α) :=
  fun x y =>
    match x, y with
    | Except.ok a, Except.ok b =>
      if h : a = b then Decidable.isTrue (congrArg Except.ok h)
      else Decidable.isFalse (fun hc => h (Except.ok.inj hc))
    | Except.error a, Except.error b =>
      if h : a = b then Decidable.isTrue (congrArg Except.error h)
      else Decidable.isFalse (fun hc => h (Except.error.inj hc))
    | Except.ok _, Except.error _ => Decidable.isFalse (fun hc => Except.noConfusion hc)
    | Except.error _, Except.ok _ => Decidable.isFalse (fun hc => Except.noConfusion hc)

/-- Result of `BetterCmd.feed`: the hook and handler events, the texts
written to the interpreter's output stream, the handler's assignment to
`self.running`, and either the returned value (the dispatched command, or
`None`) or the exception that propagated out of `feed`. -/
structure FeedOut where
  events : List RunEvent
  writes : List String
  setRunning : Option Bool
  result : Except PyExc (Option BetterCmdCommand)
deriving DecidableEq

/-- `BetterCmd.feed(command)` from the source.  `beh` gives the bodies of
the registered handler functions; `emptyBeh` and `defaultBeh` give the
outcome of the (overridable) `empty_command` and `default` hook bodies —
`none` is a hook that returns normally, as the default implementations do.
An empty line invokes `empty_command` and returns `None`.  Otherwise the
line is split; `parts[0]` of an empty token list raises `IndexError`; the
argument string is the line with `len(command_name) + 1` leading characters
dropped; an unregistered name invokes `default`; a registered command is
invoked with `CommandExit` caught and discarded, every other exception
propagating. -/
def BetterCmd.feed (s : BetterCmdState) (beh : Nat → PyNamespace → HandlerAct)
    (emptyBeh : Option PyExc)
    (defaultBeh : String → String → List String → Option PyExc)
    (line : String) : FeedOut :=
  if line = "" then
    { events := [RunEvent.emptyHook], writes := [], setRunning := none,
      result :=
        match emptyBeh with
        | some e => Except.error e
        | none => Except.ok none }
  else
    match BetterCmd.split line with
    | [] =>
      { events := [], writes := [], setRunning := none,
        result := Except.error PyExc.indexError }
    | name :: rest =>
      let args_string := pyDropChars line (name.length + 1)
      match lookupAssoc s.commands name with
      | none =>
        { events := [RunEvent.defaultHook name args_string rest], writes := [],
          setRunning := none,
          result :=
            match defaultBeh name args_string rest with
            | some e => Except.error e
            | none => Except.ok none }
      | some cmd =>
        let out := cmd.call beh args_string rest
        { events := out.events, writes := out.writes, setRunning := out.setRunning,
          result :=
            match out.exc with
            | some PyExc.commandExit => Except.ok (some cmd)
            | some e => Except.error e
            | none => Except.ok (some cmd) }

/-- How a run of the main loop ended: the `while` condition became false
(the source's `run` then simply returns), the scripted input was exhausted
while the loop still wanted a line, or an exception propagated out of the
loop body. -/
inductive RunResult : Type
  | loopExited
  | outOfInput
  | raised (e : PyExc)
deriving DecidableEq

/-- Result of a run of the main loop: the ordered trace of hook and handler
events, the texts written to the interpreter's output stream, and how the
loop ended. -/
structure RunOut where
  trace : List RunEvent
  writes : List String
  result : RunResult
deriving DecidableEq

/-- The `while self.running` loop of `BetterCmd.run`, with the blocking
prompt facility replaced by a scripted list of input lines.  Each iteration
records the (identity) `before_command` hook, feeds the line, and invokes
`after_command` with whatever `feed` returned; an exception from the body
propagates at once.  A handler's assignment to `self.running` takes effect
for the next iteration's `while` test.  When the `while` condition is false
the function returns directly: the source's `run` never invokes the
`after_loop` hook, so no `afterLoop` event is ever emitted. -/
def BetterCmd.runFrom (s : BetterCmdState) (beh : Nat → PyNamespace → HandlerAct)
    (emptyBeh : Option PyExc)
    (defaultBeh : String → String → List String → Option PyExc) :
    List String → Bool → RunOut
  | _, false => { trace := [], writes := [], result := RunResult.loopExited }
  | [], true => { trace := [], writes := [], result := RunResult.outOfInput }
  | line :: restLines, true =>
    let f := BetterCmd.feed s beh emptyBeh defaultBeh line
    match f.result with
    | Except.error e =>
      { trace := RunEvent.beforeCommand line :: f.events, writes := f.writes,
        result := RunResult.raised e }
    | Except.ok cmdOpt =>
      let r := BetterCmd.runFrom s beh emptyBeh defaultBeh restLines
        (f.setRunning.getD true)
      { trace := RunEvent.beforeCommand line :: f.events
          ++ (RunEvent.afterCommand (cmdOpt.map (fun c => c.objId)) :: r.trace),
        writes := f.writes ++ r.writes,
        result := r.result }

/-- `BetterCmd.run()`: set `self.running = True` and enter the loop. -/
def BetterCmd.run (s : BetterCmdState) (beh : Nat → PyNamespace → HandlerAct)
    (emptyBeh : Option PyExc)
    (defaultBeh : String → String → List String → Option PyExc)
    (lines : List String) : RunOut :=
  BetterCmd.runFrom s beh emptyBeh defaultBeh lines true

/-- The `host` positional option of the source's `connect` example:
default `127.0.0.1`, untyped (string). -/
def hostAction : ArgAction :=
  { optionStrings := [], dest := "host", argType := ArgType.str,
    defaultVal := some (PyVal.str "127.0.0.1"), isHelp := false }

/-- The `port` positional option of the source's `connect` example:
`type=int`, default `80`. -/
def portAction : ArgAction :=
  { optionStrings := [], dest := "port", argType := ArgType.int,
    defaultVal := some (PyVal.int 80), isHelp := false }

/-- Handler bodies that all return normally. -/
def quietBeh : Nat → PyNamespace → HandlerAct :=
  fun _ _ => handlerReturns

/-- Default-hook bodies that return normally (the base-class behavior). -/
def noHookExc : String → String → List String → Option PyExc :=
  fun _ _ _ => none

/-- An interpreter with a single plain `hello` command (handler function 0,
no parser). -/
def helloState : BetterCmdState :=
  (BetterCmd.command initialState 0 "hello" none).1

/-- An interpreter with the `connect` command of the source's example,
declaring the positional options `host` then `port`. -/
def connectState : BetterCmdState :=
  (BetterCmd.command (declareOptions initialState 0 [hostAction, portAction])
    0 "connect" (some "Connect to somewhere.")).1

/-- A handler body that raises an application exception (tag 7). -/
def raisingBeh : Nat → PyNamespace → HandlerAct :=
  fun _ _ => { exc := some (PyExc.other 7), setRunning := none }

/-- A handler body that clears `self.running` and returns (the `quit`
command of the source's example). -/
def quitBeh : Nat → PyNamespace → HandlerAct :=
  fun _ _ => { exc := none, setRunning := some false }

/-- An interpreter with a single plain `quit` command (handler function 0,
no parser). -/
def quitState : BetterCmdState :=
  (BetterCmd.command initialState 0 "quit" none).1

/-- An interpreter state right after `@cmd.alias('quit')` was applied to a
function named `bye` (the command decorator not yet run). -/
def byeAliasState : BetterCmdState :=
  (BetterCmd.alias initialState 0 "bye" ["quit"] true).1

/-- An interpreter with a single plain `x` command (handler function 0, no
parser), used to exhibit silent replacement by a second registration. -/
def xState : BetterCmdState :=
  (BetterCmd.command initialState 0 "x" none).1

/-- The command that registering `connect` in `connectState` builds: parser
configured with `prog = "connect"`, the docstring as description, and the
help, host and port actions. -/
def connectCmd : BetterCmdCommand :=
  { objId := 0, funcId := 0,
    parser := some { prog := "connect", description := some "Connect to somewhere.",
                     actions := [helpAction, hostAction, portAction] } }

example : BetterCmd.split "hello cruel world" = ["hello", "cruel", "world"] := by decide
example :
    lookupAssoc connectState.commands "connect" =
      some { objId := 0, funcId := 0,
             parser := some { prog := "connect", description := some "Connect to somewhere.",
                              actions := [helpAction, hostAction, portAction] } } := by decide
example :
    (BetterCmd.feed helloState quietBeh none noHookExc "hello cruel world").events =
      [RunEvent.handlerInvoked 0
        { args_string := "cruel world", args_list := ["cruel", "world"], attrs := [] }] := by
  decide
example :
    (BetterCmd.feed initialState quietBeh none noHookExc " ").result =
      Except.error PyExc.indexError := by decide
example :
    ParserState.parse_args
      { prog := "connect", description := none,
        actions := [helpAction, hostAction, portAction] }
      ["127.0.0.1", "80"]
      { args_string := "127.0.0.1 80", args_list := ["127.0.0.1", "80"], attrs := [] } =
    Except.ok
      { args_string := "127.0.0.1 80", args_list := ["127.0.0.1", "80"],
        attrs := [("host", PyVal.str "127.0.0.1"), ("port", PyVal.int 80)] } := by decide
example : shlexSplit " " = some [] := by decide
example : shlexSplit "\"ab c" = none := by decide
example : BetterCmd.split "\"ab c" = ["\"ab", "c"] := by rfl
example : BetterCmd.split "a 'b c' d" = ["a", "b c", "d"] := by decide

/-- Looking up the key just written by `updateAssoc` yields the new value. -/
theorem lookupAssoc_updateAssoc_self {α β : Type} [DecidableEq α]
    (m : List (α × β)) (k : α) (v : β) :
    lookupAssoc (updateAssoc m k v) k = some v := by
  induction m with
  | nil => simp [updateAssoc, lookupAssoc]
  | cons p rest ih =>
    obtain ⟨k0, v0⟩ := p
    by_cases h : k = k0
    · simp [updateAssoc, lookupAssoc, h]
    · simp [updateAssoc, lookupAssoc, h, ih]

/-- `updateAssoc` leaves every other key's binding unchanged. -/
theorem lookupAssoc_updateAssoc_ne {α β : Type} [DecidableEq α]
    (m : List (α × β)) (k k' : α) (v : β) (h : k' ≠ k) :
    lookupAssoc (updateAssoc m k v) k' = lookupAssoc m k' := by
  induction m with
  | nil => simp [updateAssoc, lookupAssoc, h]
  | cons p rest ih =>
    obtain ⟨k0, v0⟩ := p
    by_cases hk : k = k0
    · subst hk
      simp [updateAssoc, lookupAssoc, h]
    · by_cases hk' : k' = k0
      · simp [updateAssoc, lookupAssoc, hk, hk']
      · simp [updateAssoc, lookupAssoc, hk, hk', ih]

/-- Registering a command under a list of names leaves the binding of every
name outside the list unchanged. -/
theorem lookupAssoc_setAllNames_not_mem
    (m : List (String × BetterCmdCommand)) (names : List String)
    (c : BetterCmdCommand) (n : String) (h : n ∉ names) :
    lookupAssoc (setAllNames m names c) n = lookupAssoc m n := by
  induction names generalizing m with
  | nil => rfl
  | cons a rest ih =>
    have hna : n ≠ a := fun hc => h (hc ▸ List.mem_cons_self a rest)
    have hn : n ∉ rest := fun hc => h (List.mem_cons_of_mem _ hc)
    calc lookupAssoc (setAllNames m (a :: rest) c) n
        = lookupAssoc (setAllNames (updateAssoc m a c) rest c) n := rfl
      _ = lookupAssoc (updateAssoc m a c) n := ih _ hn
      _ = lookupAssoc m n := lookupAssoc_updateAssoc_ne _ _ _ _ hna

/-- Registering a command under a list of names binds every name of the
list to that command. -/
theorem lookupAssoc_setAllNames_mem
    (m : List (String × BetterCmdCommand)) (names : List String)
    (c : BetterCmdCommand) (n : String) (h : n ∈ names) :
    lookupAssoc (setAllNames m names c) n = some c := by
  induction names generalizing m with
  | nil => cases h
  | cons a rest ih =>
    by_cases hr : n ∈ rest
    · exact ih _ hr
    · have hna : n = a := by
        rcases List.mem_cons.mp h with h1 | h2
        · exact h1
        · exact absurd h2 hr
      calc lookupAssoc (setAllNames (updateAssoc m a c) rest c) n
          = lookupAssoc (updateAssoc m a c) n :=
            lookupAssoc_setAllNames_not_mem _ _ _ _ hr
        _ = some c := by rw [hna]; exact lookupAssoc_updateAssoc_self _ _ _

/-- Adding an option for a handler stores the extended parser under that
handler in `_parsers`. -/
theorem option_parsers_lookup (s : BetterCmdState) (funcId : Nat) (a : ArgAction) :
    lookupAssoc (BetterCmd.option s funcId a).parsers funcId =
      some (((lookupAssoc s.parsers funcId).getD createParser).addAction a) := by
  unfold BetterCmd.option
  exact lookupAssoc_updateAssoc_self _ _ _

/-- The pending parser of a handler after a stack of option declarations is
the fold of `addAction` over the declarations (in decorator application
order) on top of whatever parser was pending before. -/
theorem declareOptions_pending (funcId : Nat) :
    ∀ (decls : List ArgAction) (s : BetterCmdState),
      (lookupAssoc (declareOptions s funcId decls).parsers funcId).getD createParser =
        decls.foldr (fun a p => p.addAction a)
          ((lookupAssoc s.parsers funcId).getD createParser) := by
  intro decls
  induction decls with
  | nil => intro s; rfl
  | cons a rest ih =>
    intro s
    show (lookupAssoc (BetterCmd.option (declareOptions s funcId rest) funcId a).parsers
        funcId).getD createParser = _
    rw [option_parsers_lookup]
    rw [Option.getD_some]
    rw [ih s]
    rfl

/-- The `_actions` list of a parser built by a stack of option declarations
holds the help action first and then the declared options in the
programmer's declaration order: the source's reordering in `option`
compensates for the bottom-up application of stacked decorators. -/
theorem buildParser_actions (decls : List ArgAction) :
    (buildParser decls).actions = helpAction :: decls := by
  induction decls with
  | nil => rfl
  | cons a rest ih =>
    show ((buildParser rest).addAction a).actions = _
    rw [ParserState.addAction]
    rw [ih]
    cases rest with
    | nil => rfl
    | cons b bs => simp

/-- C8: for every input line the splitter never fails: when shell-style
splitting rejects the line as malformed (`shlex.split` raises
`ValueError`, e.g. on an unterminated quote), `BetterCmd.split` returns the
naive whitespace split of the line instead of raising; otherwise it returns
the shell-style token sequence. -/
theorem split_never_fails (line : String) :
    (shlexSplit line = none → BetterCmd.split line = pyStrSplit line) ∧
    (∀ ts : List String, shlexSplit line = some ts → BetterCmd.split line = ts) := by
  constructor
  · intro h
    unfold BetterCmd.split
    rw [h]
  · intro ts h
    unfold BetterCmd.split
    rw [h]

/-- Witness for `split_never_fails`: the line with the unterminated double
quote makes shell-style splitting fail and is split naively, while an
ordinary line gets its shell-style token list. -/
theorem split_never_fails_witness :
    BetterCmd.split "\"ab c" = pyStrSplit "\"ab c" ∧
      pyStrSplit "\"ab c" = ["\"ab", "c"] ∧
      BetterCmd.split "hello cruel world" = ["hello", "cruel", "world"] :=
  ⟨(split_never_fails "\"ab c").1 (by decide),
   by decide,
   (split_never_fails "hello cruel world").2 _ (by decide)⟩

/-- C9 (code bug): the loop of `run()` exits after the `quit` handler clears
`self.running` — the final iteration's `after_command` hook fires — but the
`after_loop` hook, documented as "Called when the main loop exits", is never
invoked: `run()` contains no call to it, so the run's trace holds no
`afterLoop` event at all. -/
theorem run_never_invokes_after_loop :
    (BetterCmd.run quitState quitBeh none noHookExc ["quit", "next"]).result =
        RunResult.loopExited ∧
      (BetterCmd.run quitState quitBeh none noHookExc ["quit", "next"]).trace =
        [RunEvent.beforeCommand "quit",
         RunEvent.handlerInvoked 0 { args_string := "", args_list := [], attrs := [] },
         RunEvent.afterCommand (some 0)] ∧
      RunEvent.afterLoop ∉ (BetterCmd.run quitState quitBeh none noHookExc ["quit", "next"]).trace := by
  decide

/-- C6: options declared incrementally end up processed in the programmer's
declaration order, after the built-in entries: the built parser's `_actions`
list is the help action followed by the declared options in declaration
order (both as a parser-level fold and through the interpreter's `_parsers`
table), and the `connect` example — positional `host` (default `127.0.0.1`)
declared before positional `port` (`type=int`, default 80) — parsed on the
tokens `127.0.0.1` and `80` binds `host` to the string `127.0.0.1` and
`port` to the integer 80 (an `int`, not a string), after the two built-in
raw fields of the namespace. -/
theorem options_processed_in_declaration_order :
    (∀ decls : List ArgAction, (buildParser decls).actions = helpAction :: decls) ∧
    (∀ (a : ArgAction) (decls : List ArgAction) (funcId : Nat),
      lookupAssoc (declareOptions initialState funcId (a :: decls)).parsers funcId =
        some (buildParser (a :: decls))) ∧
    ParserState.parse_args
      { prog := "connect", description := some "Connect to somewhere.",
        actions := [helpAction, hostAction, portAction] }
      ["127.0.0.1", "80"]
      { args_string := "127.0.0.1 80", args_list := ["127.0.0.1", "80"], attrs := [] } =
      Except.ok
        { args_string := "127.0.0.1 80", args_list := ["127.0.0.1", "80"],
          attrs := [("host", PyVal.str "127.0.0.1"), ("port", PyVal.int 80)] } := by
  refine ⟨buildParser_actions, ?_, by decide⟩
  intro a decls funcId
  show lookupAssoc
      (BetterCmd.option (declareOptions initialState funcId decls) funcId a).parsers
      funcId = _
  rw [option_parsers_lookup]
  rw [declareOptions_pending]
  rfl

/-- C1 counterexample: two different handlers (functions 0 and 1), neither
passed through the alias decorator, are registered one after the other under
the overlapping name set containing only `x`: the second registration raises
no `DuplicateNameError` and afterwards the registry binds `x` to the second
handler's command — so registering two different handlers under an
overlapping name set does not always fail, and the registry is not the state
prior to the attempt. -/
theorem overlapping_plain_names_register_without_error :
    lookupAssoc xState.commands "x" = some { objId := 0, funcId := 0, parser := none } ∧
      (BetterCmd.command xState 1 "x" none).2 =
        Except.ok { objId := 1, funcId := 1, parser := none } ∧
      lookupAssoc (BetterCmd.command xState 1 "x" none).1.commands "x" =
        some { objId := 1, funcId := 1, parser := none } := by
  decide

/-- C1 (amended): when the overlap involves names recorded through the alias
decorator — any requested name of the new registration (the function's own
name included, when `add_function` holds) already being in `_all_aliases` —
the registration fails with `DuplicateNameError` carrying the colliding
names, raised synchronously before the registration commits: the returned
state is exactly the state prior to the attempt, so the registry contains
none of the failing call's names. -/
theorem alias_overlap_fails_leaving_state_unchanged
    (s : BetterCmdState) (funcId : Nat) (funcName : String)
    (names : List String) (addFunction : Bool) (docstring : Option String)
    (n : String)
    (hreq : n ∈ (if addFunction then funcName :: names else names))
    (hdup : n ∈ s.allAliases) :
    BetterCmd.registerAliased s funcId funcName names addFunction docstring =
      (s, Except.error (PyExc.duplicateName
        ((if addFunction then funcName :: names else names).filter
          (fun m => m ∈ s.allAliases)))) := by
  have hne : (if addFunction then funcName :: names else names).filter
      (fun m => decide (m ∈ s.allAliases)) ≠ [] := by
    intro hnil
    have hm : n ∈ (if addFunction then funcName :: names else names).filter
        (fun m => decide (m ∈ s.allAliases)) :=
      List.mem_filter.mpr ⟨hreq, by simpa using hdup⟩
    rw [hnil] at hm
    cases hm
  unfold BetterCmd.registerAliased BetterCmd.alias
  simp only [if_pos hne]

/-- Witness for `alias_overlap_fails_leaving_state_unchanged`: with `bye`
and `quit` already alias-declared, alias-registering a new function under
`quit` fails with `DuplicateNameError(["quit"])` and leaves the state
untouched. -/
theorem alias_overlap_fails_leaving_state_unchanged_witness :
    BetterCmd.registerAliased byeAliasState 1 "leave" ["quit"] true none =
      (byeAliasState, Except.error (PyExc.duplicateName ["quit"])) := by
  have h := alias_overlap_fails_leaving_state_unchanged byeAliasState 1 "leave"
    ["quit"] true none "quit" (by decide) (by decide)
  exact h.trans (by decide)

/-- C10: a function whose name was never declared through the alias
decorator is registered by `command` under its own `__name__` with no
duplicate-name check: the registration succeeds and (re)binds that name to
the freshly built command, silently replacing any previous binding. -/
theorem command_registers_without_duplicate_check
    (s : BetterCmdState) (funcId : Nat) (funcName : String) (docstring : Option String)
    (hali : lookupAssoc s.aliases funcId = none)
    (hpar : lookupAssoc s.parsers funcId = none) :
    BetterCmd.command s funcId funcName docstring =
      ({ s with
          commands := updateAssoc s.commands funcName
            { objId := s.nextObjId, funcId := funcId, parser := none },
          nextObjId := s.nextObjId + 1 },
       Except.ok { objId := s.nextObjId, funcId := funcId, parser := none }) ∧
    lookupAssoc (BetterCmd.command s funcId funcName docstring).1.commands funcName =
      some { objId := s.nextObjId, funcId := funcId, parser := none } := by
  have h1 : BetterCmd.command s funcId funcName docstring =
      ({ s with
          commands := updateAssoc s.commands funcName
            { objId := s.nextObjId, funcId := funcId, parser := none },
          nextObjId := s.nextObjId + 1 },
       Except.ok { objId := s.nextObjId, funcId := funcId, parser := none }) := by
    unfold BetterCmd.command
    rw [hali, hpar]
    rfl
  refine ⟨h1, ?_⟩
  rw [h1]
  exact lookupAssoc_updateAssoc_self _ _ _

/-- Witness for `command_registers_without_duplicate_check`: the name `x` is
already bound to handler 0's command, and registering handler 1 (never
aliased) under the same name succeeds and replaces the binding. -/
theorem command_registers_without_duplicate_check_witness :
    lookupAssoc xState.commands "x" = some { objId := 0, funcId := 0, parser := none } ∧
      lookupAssoc (BetterCmd.command xState 1 "x" none).1.commands "x" =
        some { objId := 1, funcId := 1, parser := none } := by
  refine ⟨by decide, ?_⟩
  have h := command_registers_without_duplicate_check xState 1 "x" none
    (by decide) (by decide)
  exact h.2.trans (by decide)

/-- C5 counterexample: feeding the whitespace-only line of a single space
does raise — the shell-style split of the line is the empty token list, so
`parts[0]` fails with `IndexError` — and the `empty_command` hook is not
invoked, refuting the claim for whitespace-only lines. -/
theorem whitespace_only_line_raises_index_error :
    (BetterCmd.feed initialState quietBeh none noHookExc " ").result =
        Except.error PyExc.indexError ∧
      (BetterCmd.feed initialState quietBeh none noHookExc " ").events = [] := by
  decide

/-- C5 (amended): feeding the empty line invokes the `empty_command` hook
and reports `None` for that iteration without invoking `default` or any
registered command, and feeding a line whose command name is not registered
invokes `default(name, args_string, args_list)` and reports `None`; in
these two cases `feed` does not raise.  (Whitespace-only nonempty lines
are excluded: they split to no tokens and `feed` fails with `IndexError`.) -/
theorem empty_and_unrecognised_lines_do_not_raise
    (s : BetterCmdState) (beh : Nat → PyNamespace → HandlerAct)
    (line name : String) (rest : List String)
    (hsplit : BetterCmd.split line = name :: rest)
    (hlook : lookupAssoc s.commands name = none) :
    BetterCmd.feed s beh none noHookExc "" =
      { events := [RunEvent.emptyHook], writes := [], setRunning := none,
        result := Except.ok none } ∧
    BetterCmd.feed s beh none noHookExc line =
      { events := [RunEvent.defaultHook name (pyDropChars line (name.length + 1)) rest],
        writes := [], setRunning := none, result := Except.ok none } := by
  constructor
  · rfl
  · have hline : line ≠ "" := by
      intro h
      rw [h] at hsplit
      rw [show BetterCmd.split "" = [] from rfl] at hsplit
      exact List.noConfusion hsplit
    simp only [BetterCmd.feed, if_neg hline, hsplit, hlook, noHookExc]

/-- Witness for `empty_and_unrecognised_lines_do_not_raise`: the empty line
and the line `test this out` with no registered `test` command, whose
`default` hook receives `("test", "this out", ["this", "out"])`. -/
theorem empty_and_unrecognised_lines_do_not_raise_witness :
    BetterCmd.feed initialState quietBeh none noHookExc "" =
      { events := [RunEvent.emptyHook], writes := [], setRunning := none,
        result := Except.ok none } ∧
    BetterCmd.feed initialState quietBeh none noHookExc "test this out" =
      { events := [RunEvent.defaultHook "test" "this out" ["this", "out"]],
        writes := [], setRunning := none, result := Except.ok none } := by
  have h := empty_and_unrecognised_lines_do_not_raise initialState quietBeh
    "test this out" "test" ["this", "out"] (by decide) (by decide)
  exact ⟨h.1, h.2.trans (by decide)⟩

/-- A line that splits into at least one token is not the empty string. -/
theorem line_ne_empty_of_split (line name : String) (rest : List String)
    (hsplit : BetterCmd.split line = name :: rest) : line ≠ "" := by
  intro h
  rw [h] at hsplit
  rw [show BetterCmd.split "" = [] from rfl] at hsplit
  exact List.noConfusion hsplit

set_option maxRecDepth 8000 in
/-- A scan that starts with the help option string writes the help text and
exits: the first action is the help action, which matches `-h`. -/
theorem scanTokens_help (q : ParserState) (acts : List ArgAction)
    (tl pos : List String) (opts : List (ArgAction × String))
    (hacts : q.actions = helpAction :: acts) :
    scanTokens q ("-h" :: tl) pos opts = Except.error [formatHelp q] := by
  have hopt : looksLikeOption "-h" = true := by decide
  have hfind : q.actions.find? (fun a => a.optionStrings.contains "-h") = some helpAction := by
    rw [hacts]
    exact List.find?_cons_of_pos _ (by decide)
  simp only [scanTokens, hopt, if_true, hfind]
  rfl

/-- A failing `parse_args` run is exactly a failing token scan or a failing
match of positionals or conversions; at the top this lemma just lifts a help
scan into `parse_args`. -/
theorem parse_args_help (q : ParserState) (acts : List ArgAction)
    (tl : List String) (ns : PyNamespace)
    (hacts : q.actions = helpAction :: acts) :
    q.parse_args ("-h" :: tl) ns = Except.error [formatHelp q] := by
  unfold ParserState.parse_args
  rw [scanTokens_help q acts tl [] [] hacts]

/-- C2: all names of one registration's alias set resolve in the registry to
the same `BetterCmdCommand` object — object identity, not mere equality,
since every construction carries a fresh `objId`: for all names `a`, `b` in
the alias set of one registration, `commands[a]` and `commands[b]` are both
the very command object the registration built. -/
theorem aliases_resolve_to_same_object
    (s : BetterCmdState) (funcId : Nat) (funcName : String) (docstring : Option String)
    (names : List String) (s' : BetterCmdState) (c : BetterCmdCommand)
    (haliases : lookupAssoc s.aliases funcId = some names)
    (hreg : BetterCmd.command s funcId funcName docstring = (s', Except.ok c))
    (a b : String) (ha : a ∈ names) (hb : b ∈ names) :
    lookupAssoc s'.commands a = some c ∧
      lookupAssoc s'.commands a = lookupAssoc s'.commands b := by
  simp only [BetterCmd.command, haliases, Option.getD_some] at hreg
  cases hp : lookupAssoc s.parsers funcId with
  | none =>
    simp only [hp] at hreg
    rw [Prod.mk.injEq] at hreg
    obtain ⟨hs', hc⟩ := hreg
    injection hc with hc
    subst hc
    subst hs'
    have key : ∀ n : String, n ∈ names →
        lookupAssoc (setAllNames s.commands names
          { objId := s.nextObjId, funcId := funcId, parser := none }) n =
          some { objId := s.nextObjId, funcId := funcId, parser := none } :=
      fun n hn => lookupAssoc_setAllNames_mem _ _ _ _ hn
    exact ⟨key a ha, (key a ha).trans (key b hb).symm⟩
  | some p =>
    simp only [hp] at hreg
    cases names with
    | nil => cases ha
    | cons a0 tl =>
      simp only [] at hreg
      rw [Prod.mk.injEq] at hreg
      obtain ⟨hs', hc⟩ := hreg
      injection hc with hc
      subst hc
      subst hs'
      have key : ∀ n : String, n ∈ a0 :: tl →
          lookupAssoc (setAllNames s.commands (a0 :: tl)
            { objId := s.nextObjId, funcId := funcId,
              parser := some { p with prog := a0, description := docstring } }) n =
            some { objId := s.nextObjId, funcId := funcId,
                   parser := some { p with prog := a0, description := docstring } } :=
        fun n hn => lookupAssoc_setAllNames_mem _ _ _ _ hn
      exact ⟨key a ha, (key a ha).trans (key b hb).symm⟩

/-- Witness for `aliases_resolve_to_same_object`: registering `bye` with the
alias `quit` binds both names to the one command object. -/
theorem aliases_resolve_to_same_object_witness :
    lookupAssoc (BetterCmd.command byeAliasState 0 "bye" none).1.commands "bye" =
        some { objId := 0, funcId := 0, parser := none } ∧
      lookupAssoc (BetterCmd.command byeAliasState 0 "bye" none).1.commands "bye" =
        lookupAssoc (BetterCmd.command byeAliasState 0 "bye" none).1.commands "quit" :=
  aliases_resolve_to_same_object byeAliasState 0 "bye" none ["bye", "quit"]
    (BetterCmd.command byeAliasState 0 "bye" none).1
    { objId := 0, funcId := 0, parser := none }
    (by decide) (by decide) "bye" "quit" (by decide) (by decide)

/-- C3: for every fed line whose first token names a registered (parserless)
command, the handler is invoked with `args_string` equal to the original
line with `len(command_name) + 1` leading characters dropped and
`args_list` equal to the remaining tokens; and whenever the line literally
starts with the command name followed by one separator character, that
argument string is exactly the remainder — the command name and exactly one
separator stripped from the front, the rest preserved verbatim. -/
theorem feed_strips_name_and_dispatches
    (s : BetterCmdState) (beh : Nat → PyNamespace → HandlerAct)
    (emptyBeh : Option PyExc)
    (defaultBeh : String → String → List String → Option PyExc)
    (line name : String) (rest : List String) (cmd : BetterCmdCommand)
    (hsplit : BetterCmd.split line = name :: rest)
    (hlook : lookupAssoc s.commands name = some cmd)
    (hnp : cmd.parser = none) :
    (BetterCmd.feed s beh emptyBeh defaultBeh line).events =
      [RunEvent.handlerInvoked cmd.funcId
        { args_string := pyDropChars line (name.length + 1), args_list := rest,
          attrs := [] }] ∧
    (∀ (sep : Char) (tail : String),
      line = name ++ String.mk [sep] ++ tail →
      pyDropChars line (name.length + 1) = tail) := by
  constructor
  · have hline := line_ne_empty_of_split line name rest hsplit
    simp only [BetterCmd.feed, if_neg hline, hsplit, hlook,
      BetterCmdCommand.call, hnp]
  · intro sep tail hline2
    subst hline2
    unfold pyDropChars
    have hdrop : ((name ++ String.mk [sep] ++ tail).data).drop (name.length + 1) =
        tail.data := by
      rw [String.data_append, String.data_append]
      have hlen : name.length + 1 = (name.data ++ [sep]).length := by
        rw [List.length_append]
        rfl
      rw [hlen, List.drop_left]
    rw [hdrop]

/-- Witness for `feed_strips_name_and_dispatches`: feeding the line
`hello cruel world` to an interpreter with a registered `hello` handler
invokes it with `args_string = "cruel world"` and
`args_list = ["cruel", "world"]`. -/
theorem feed_strips_name_and_dispatches_witness :
    (BetterCmd.feed helloState quietBeh none noHookExc "hello cruel world").events =
      [RunEvent.handlerInvoked 0
        { args_string := "cruel world", args_list := ["cruel", "world"], attrs := [] }] ∧
      pyDropChars "hello cruel world" 6 = "cruel world" := by
  have h := feed_strips_name_and_dispatches helloState quietBeh none noHookExc
    "hello cruel world" "hello" ["cruel", "world"]
    { objId := 0, funcId := 0, parser := none } (by decide) (by decide) rfl
  exact ⟨h.1.trans (by decide), h.2 ' ' "cruel world" (by decide)⟩

/-- C4: for a command with a declared parser, a failing `parse_args` run —
parse error, help or usage request, or an explicit exit through the parser —
raises `CommandExit` instead of terminating the process: the adapter's
`exit` yields `CommandExit` after writing its message to the interpreter's
output stream, the written texts surface as the dispatch's writes, and
`feed` catches and discards the signal exactly at the dispatch boundary, so
the run loop proceeds to the `after_command` hook and the signal never
surfaces past `feed`; a handler's own `parser.exit()` (raising
`CommandExit` from within the handler) is swallowed the same way, and a
help request on a parser writes the generated help text. -/
theorem command_exit_contained_at_dispatch
    (s : BetterCmdState) (beh : Nat → PyNamespace → HandlerAct)
    (emptyBeh : Option PyExc)
    (defaultBeh : String → String → List String → Option PyExc)
    (line name : String) (rest more : List String)
    (cmd : BetterCmdCommand) (p : ParserState) (w : List String)
    (hsplit : BetterCmd.split line = name :: rest)
    (hlook : lookupAssoc s.commands name = some cmd)
    (hp : cmd.parser = some p)
    (hparse : p.parse_args rest
      { args_string := pyDropChars line (name.length + 1), args_list := rest,
        attrs := [] } = Except.error w) :
    BetterCmd.feed s beh emptyBeh defaultBeh line =
      { events := [], writes := w, setRunning := none,
        result := Except.ok (some cmd) } ∧
    (BetterCmd.run s beh emptyBeh defaultBeh (line :: more)).trace =
      RunEvent.beforeCommand line :: RunEvent.afterCommand (some cmd.objId) ::
        (BetterCmd.runFrom s beh emptyBeh defaultBeh more true).trace ∧
    (BetterCmd.run s beh emptyBeh defaultBeh (line :: more)).result =
      (BetterCmd.runFrom s beh emptyBeh defaultBeh more true).result ∧
    (∀ (q : ParserState) (acts : List ArgAction) (tl : List String) (ns : PyNamespace),
      q.actions = helpAction :: acts →
      q.parse_args ("-h" :: tl) ns = Except.error [formatHelp q]) ∧
    (∀ msg : Option String,
      BetterCmdArgumentParser.exit msg = (msg.toList, PyExc.commandExit)) ∧
    (∀ (s2 : BetterCmdState) (line2 name2 : String) (rest2 : List String)
        (cmd2 : BetterCmdCommand),
      BetterCmd.split line2 = name2 :: rest2 →
      lookupAssoc s2.commands name2 = some cmd2 →
      cmd2.parser = none →
      (beh cmd2.funcId
        { args_string := pyDropChars line2 (name2.length + 1), args_list := rest2,
          attrs := [] }).exc = some PyExc.commandExit →
      (BetterCmd.feed s2 beh emptyBeh defaultBeh line2).result =
        Except.ok (some cmd2)) := by
  have hline := line_ne_empty_of_split line name rest hsplit
  have hfeed : BetterCmd.feed s beh emptyBeh defaultBeh line =
      { events := [], writes := w, setRunning := none,
        result := Except.ok (some cmd) } := by
    simp only [BetterCmd.feed, if_neg hline, hsplit, hlook,
      BetterCmdCommand.call, hp, hparse]
  refine ⟨hfeed, ?_, ?_, ?_, fun msg => rfl, ?_⟩
  · simp only [BetterCmd.run, BetterCmd.runFrom, hfeed]
    all_goals rfl
  · simp only [BetterCmd.run, BetterCmd.runFrom, hfeed]
    all_goals rfl
  · exact fun q acts tl ns hacts => parse_args_help q acts tl ns hacts
  · intro s2 line2 name2 rest2 cmd2 hsplit2 hlook2 hnp2 hexc2
    have hline2 := line_ne_empty_of_split line2 name2 rest2 hsplit2
    simp only [BetterCmd.feed, if_neg hline2, hsplit2, hlook2,
      BetterCmdCommand.call, hnp2, hexc2]

/-- Witness for `command_exit_contained_at_dispatch`: requesting help on the
`connect` command writes the generated usage text to the interpreter's
output stream, the dispatch returns normally, and the one-line run ends by
running out of scripted input rather than by an exception. -/
theorem command_exit_contained_at_dispatch_witness :
    BetterCmd.feed connectState quietBeh none noHookExc "connect -h" =
      { events := [], writes := ["usage: connect"], setRunning := none,
        result := Except.ok (some connectCmd) } ∧
      (BetterCmd.run connectState quietBeh none noHookExc ["connect -h"]).result =
        RunResult.outOfInput := by
  have h := command_exit_contained_at_dispatch connectState quietBeh none noHookExc
    "connect -h" "connect" ["-h"] [] connectCmd
    { prog := "connect", description := some "Connect to somewhere.",
      actions := [helpAction, hostAction, portAction] }
    ["usage: connect"] (by decide) (by decide) rfl (by decide)
  exact ⟨h.1, h.2.2.1⟩

/-- C7: any failure raised by a command handler or by a hook, other than the
command-exit signal, is not caught by the core: it propagates unchanged out
of `feed`, and hence out of `run`, to the caller — whether the raiser is the
handler function, the `empty_command` hook, or the `default` hook. -/
theorem handler_and_hook_errors_propagate
    (s : BetterCmdState) (beh : Nat → PyNamespace → HandlerAct)
    (emptyBeh : Option PyExc)
    (defaultBeh : String → String → List String → Option PyExc)
    (line name : String) (rest more : List String)
    (cmd : BetterCmdCommand) (e : PyExc)
    (hsplit : BetterCmd.split line = name :: rest)
    (hlook : lookupAssoc s.commands name = some cmd)
    (hnp : cmd.parser = none)
    (hexc : (beh cmd.funcId
      { args_string := pyDropChars line (name.length + 1), args_list := rest,
        attrs := [] }).exc = some e)
    (hne : e ≠ PyExc.commandExit) :
    (BetterCmd.feed s beh emptyBeh defaultBeh line).result = Except.error e ∧
    (BetterCmd.run s beh emptyBeh defaultBeh (line :: more)).result =
      RunResult.raised e ∧
    (∀ e2 : PyExc,
      (BetterCmd.feed s beh (some e2) defaultBeh "").result = Except.error e2) ∧
    (∀ (line2 name2 : String) (rest2 : List String) (e2 : PyExc),
      BetterCmd.split line2 = name2 :: rest2 →
      lookupAssoc s.commands name2 = none →
      defaultBeh name2 (pyDropChars line2 (name2.length + 1)) rest2 = some e2 →
      (BetterCmd.feed s beh emptyBeh defaultBeh line2).result = Except.error e2) := by
  have hline := line_ne_empty_of_split line name rest hsplit
  have hres : (BetterCmd.feed s beh emptyBeh defaultBeh line).result =
      Except.error e := by
    cases e with
    | commandExit => exact absurd rfl hne
    | indexError =>
      simp only [BetterCmd.feed, if_neg hline, hsplit, hlook,
        BetterCmdCommand.call, hnp, hexc]
    | duplicateName ns2 =>
      simp only [BetterCmd.feed, if_neg hline, hsplit, hlook,
        BetterCmdCommand.call, hnp, hexc]
    | other n =>
      simp only [BetterCmd.feed, if_neg hline, hsplit, hlook,
        BetterCmdCommand.call, hnp, hexc]
  refine ⟨hres, ?_, fun e2 => rfl, ?_⟩
  · simp only [BetterCmd.run, BetterCmd.runFrom, hres]
  · intro line2 name2 rest2 e2 hsplit2 hlook2 hd2
    have hline2 := line_ne_empty_of_split line2 name2 rest2 hsplit2
    simp only [BetterCmd.feed, if_neg hline2, hsplit2, hlook2, hd2]

/-- Witness for `handler_and_hook_errors_propagate`: the `hello` handler
raises an application exception (tag 7), which propagates out of `feed` and
out of `run` unchanged. -/
theorem handler_and_hook_errors_propagate_witness :
    (BetterCmd.feed helloState raisingBeh none noHookExc "hello").result =
        Except.error (PyExc.other 7) ∧
      (BetterCmd.run helloState raisingBeh none noHookExc ["hello"]).result =
        RunResult.raised (PyExc.other 7) := by
  have h := handler_and_hook_errors_propagate helloState raisingBeh none noHookExc
    "hello" "hello" [] [] { objId := 0, funcId := 0, parser := none } (PyExc.other 7)
    (by decide) (by decide) rfl (by decide) (by decide)
  exact ⟨h.1, h.2.1⟩
